import Mathlib

/-!
Shallow embedding of the EveryIBus iBUS telemetry library
(src/EveryIBus.cpp, src/EveryIBus.h).

The library keeps a fixed table of 4 sensor slots and answers 4-byte
polling frames from the bus master with discovery, type and measurement
responses.  Bytes are modelled as natural numbers; every place where the
C++ code truncates to uint8 or uint16 carries an explicit mod.  The
serial transport is modelled as two byte lists: rxBuf (bytes waiting to
be read) and txBuf (bytes written so far).
-/

namespace EveryIBus

/-- Mirrors struct Sensor: a slot of the registry.  The field hasValue
is the occupancy flag; type and value are a uint8 and a uint16. -/
structure Sensor where
  type : Nat
  value : Nat
  hasValue : Bool
deriving Repr, DecidableEq

/-- Mirrors the MAX_SENSORS macro. -/
def MAX_SENSORS : Nat := 4

/-- Mirrors IBUS_CMD_DISCOVER. -/
def IBUS_CMD_DISCOVER : Nat := 0x80

/-- Mirrors IBUS_CMD_TYPE. -/
def IBUS_CMD_TYPE : Nat := 0x90

/-- Mirrors IBUS_CMD_MEASUREMENT. -/
def IBUS_CMD_MEASUREMENT : Nat := 0xA0

/-- Mirrors EveryIBus::findSensorIndex: first occupied slot whose type
matches, scanned in index order; none plays the role of the -1 return. -/
def findSensorIndex : List Sensor → Nat → Option Nat
  | [], _ => none
  | s :: rest, t =>
    if s.hasValue && s.type == t then some 0
    else (findSensorIndex rest t).map (· + 1)

/-- Mirrors the update branch of EveryIBus::setSensorValue: overwrite the
value of the slot at the given index, leaving type and occupancy alone. -/
def updateValueAt : List Sensor → Nat → Nat → List Sensor
  | [], _, _ => []
  | s :: rest, 0, v => { s with value := v } :: rest
  | s :: rest, i + 1, v => s :: updateValueAt rest i v

/-- Mirrors the empty-slot scan of EveryIBus::setSensorValue: occupy the
first slot with hasValue false; when every slot is occupied the scan
falls through and the table is returned unchanged. -/
def occupyFirstFree : List Sensor → Nat → Nat → List Sensor
  | [], _, _ => []
  | s :: rest, t, v =>
    if s.hasValue then s :: occupyFirstFree rest t v
    else ⟨t, v, true⟩ :: rest

/-- Mirrors EveryIBus::setSensorValue: update the existing slot for this
type, or occupy the first free slot, or silently drop the value. -/
def setSensorValue (sensors : List Sensor) (sensorType rawValue : Nat) : List Sensor :=
  match findSensorIndex sensors sensorType with
  | some i => updateValueAt sensors i rawValue
  | none => occupyFirstFree sensors sensorType rawValue

/-- Number of occupied slots holding the given type (used to state the
registry uniqueness properties). -/
def occupiedOfType (sensors : List Sensor) (t : Nat) : Nat :=
  (sensors.filter (fun s => s.hasValue && s.type == t)).length

/-- Number of occupied slots. -/
def occupiedCount (sensors : List Sensor) : Nat :=
  (sensors.filter (fun s => s.hasValue)).length

/-- Occupancy of the slot at a given index; false when the index is out
of range (mirrors the guarded array reads of the C++ handlers). -/
def hasValueAt (sensors : List Sensor) (i : Nat) : Bool :=
  match sensors.get? i with
  | some s => s.hasValue
  | none => false

/-- The occupied slots form a contiguous initial segment of the table:
a slot is occupied exactly when its index is below the occupied count. -/
def contiguous (sensors : List Sensor) : Prop :=
  ∀ i, hasValueAt sensors i = true ↔ i < occupiedCount sensors

/-- Whole-engine state: the fields of class EveryIBus together with the
modelled serial port.  serialAttached stands for the null test on the
serial pointer; rxBuf holds the bytes the transport would hand to read,
txBuf the bytes the engine has written. -/
structure IBusState where
  serialAttached : Bool
  sensors : List Sensor
  anyDiscovered : Bool
  packetCount : Nat
  responseCount : Nat
  rxBuf : List Nat
  txBuf : List Nat
deriving Repr, DecidableEq

/-- Mirrors the EveryIBus constructor: no serial attached, all four
slots unused with the 0xFF sentinel type, counters zero. -/
def initialState : IBusState :=
  { serialAttached := false
    sensors := List.replicate 4 ⟨0xFF, 0, false⟩
    anyDiscovered := false
    packetCount := 0
    responseCount := 0
    rxBuf := []
    txBuf := [] }

/-- Mirrors EveryIBus::begin: attach the serial port and clear any
buffered input. -/
def beginSerial (st : IBusState) : IBusState :=
  { st with serialAttached := true, rxBuf := [] }

/-- One destructive serial read, as seen by packet assembly: the byte at
offset i of the receive buffer, truncated to uint8; an exhausted buffer
yields 0xFF (the int -1 of HardwareSerial::read cast to uint8). -/
def readByteAt (buf : List Nat) (i : Nat) : Nat :=
  (buf.getD i 0xFF) % 256

/-- Mirrors EveryIBus::validatePacket on the four packet bytes: the
length byte must be 0x04 and 0xFFFF minus the sum of the first two bytes
must equal the little-endian checksum carried in bytes 2 and 3. -/
def validatePacket (p0 p1 p2 p3 : Nat) : Bool :=
  if p0 != 0x04 then false
  else
    let expectedChecksum := 0xFFFF - (p0 + p1)
    let receivedChecksum := (p3 <<< 8) ||| p2
    expectedChecksum == receivedChecksum

/-- Mirrors EveryIBus::calculateChecksum: 0xFFFF minus the uint16 sum of
the data bytes (the running sum wraps at 2 to the 16). -/
def calculateChecksum (data : List Nat) : Nat :=
  0xFFFF - data.foldl (fun sum b => (sum + b) % 65536) 0

/-- Mirrors EveryIBus::sendPacket: append the bytes to the transmit side
of the transport, doing nothing when no serial port is attached. -/
def sendPacket (st : IBusState) (data : List Nat) : IBusState :=
  if st.serialAttached then { st with txBuf := st.txBuf ++ data } else st

/-- Mirrors EveryIBus::sendDiscoveryResponse: a 4-byte echo
[0x04, 0x80 or address, checksum lo, checksum hi].  The uint32 response
counter wraps at 2 to the 32. -/
def sendDiscoveryResponse (st : IBusState) (address : Nat) : IBusState :=
  let b0 := 0x04
  let b1 := 0x80 ||| address
  let checksum := 0xFFFF - (b0 + b1)
  let st1 := sendPacket st [b0, b1, checksum &&& 0xFF, (checksum >>> 8) &&& 0xFF]
  { st1 with responseCount := (st1.responseCount + 1) % 4294967296 }

/-- Mirrors EveryIBus::handleDiscoveryCommand: answer only when the slot
for this address is occupied, and then latch the discovered flag. -/
def handleDiscoveryCommand (st : IBusState) (address : Nat) : IBusState :=
  if address ≤ MAX_SENSORS && hasValueAt st.sensors (address - 1) then
    let st1 := sendDiscoveryResponse st address
    { st1 with anyDiscovered := true }
  else st

/-- Mirrors EveryIBus::sendTypeResponse: 6 bytes
[0x06, 0x90 or address, sensor type, 0x02, checksum lo, checksum hi]. -/
def sendTypeResponse (st : IBusState) (address : Nat) : IBusState :=
  if MAX_SENSORS < address then st
  else
    match st.sensors.get? (address - 1) with
    | none => st
    | some s =>
      if !s.hasValue then st
      else
        let b1 := 0x90 ||| address
        let checksum := calculateChecksum [0x06, b1, s.type, 0x02]
        let st1 := sendPacket st
          [0x06, b1, s.type, 0x02, checksum &&& 0xFF, (checksum >>> 8) &&& 0xFF]
        { st1 with responseCount := (st1.responseCount + 1) % 4294967296 }

/-- Mirrors EveryIBus::sendMeasurementResponse: 6 bytes
[0x06, 0xA0 or address, value lo, value hi, checksum lo, checksum hi]. -/
def sendMeasurementResponse (st : IBusState) (address : Nat) : IBusState :=
  if MAX_SENSORS < address then st
  else
    match st.sensors.get? (address - 1) with
    | none => st
    | some s =>
      if !s.hasValue then st
      else
        let b1 := 0xA0 ||| address
        let lo := s.value &&& 0xFF
        let hi := (s.value >>> 8) &&& 0xFF
        let checksum := calculateChecksum [0x06, b1, lo, hi]
        let st1 := sendPacket st
          [0x06, b1, lo, hi, checksum &&& 0xFF, (checksum >>> 8) &&& 0xFF]
        { st1 with responseCount := (st1.responseCount + 1) % 4294967296 }

/-- Mirrors EveryIBus::handlePacket: read four bytes, count the frame
(the uint32 frame counter wraps at 2 to the 32), validate, dispatch on
command nibble and address nibble for addresses 1..4, and finally
discard every byte still buffered on the receive side
(clearSerialBuffer). -/
def handlePacket (st : IBusState) : IBusState :=
  let p0 := readByteAt st.rxBuf 0
  let p1 := readByteAt st.rxBuf 1
  let p2 := readByteAt st.rxBuf 2
  let p3 := readByteAt st.rxBuf 3
  let st1 := { st with rxBuf := st.rxBuf.drop 4, packetCount := (st.packetCount + 1) % 4294967296 }
  let st2 :=
    if validatePacket p0 p1 p2 p3 then
      let command := p1 &&& 0xF0
      let address := p1 &&& 0x0F
      if 1 ≤ address && address ≤ 4 then
        if command == IBUS_CMD_DISCOVER then handleDiscoveryCommand st1 address
        else if command == IBUS_CMD_TYPE then sendTypeResponse st1 address
        else if command == IBUS_CMD_MEASUREMENT then sendMeasurementResponse st1 address
        else st1
      else st1
    else st1
  { st2 with rxBuf := [] }

/-- Mirrors EveryIBus::update: do nothing without a serial port; with at
least four buffered bytes, handle one packet. -/
def update (st : IBusState) : IBusState :=
  if !st.serialAttached then st
  else if 4 ≤ st.rxBuf.length then handlePacket st
  else st

/-- setSensorValue lifted to the engine state (the raw-value entry point
behind setRPM, setTemperature and the voltage setters). -/
def engineSetSensorValue (st : IBusState) (t v : Nat) : IBusState :=
  { st with sensors := setSensorValue st.sensors t v }

/-- One public operation of the library: attaching the serial port,
registering or updating a sensor value, the environment delivering bytes
on the receive side, or one call to update. -/
inductive Step : IBusState → IBusState → Prop
  | beginStep (st : IBusState) : Step st (beginSerial st)
  | setValue (st : IBusState) (t v : Nat) : Step st (engineSetSensorValue st t v)
  | feed (st : IBusState) (bytes : List Nat) : Step st { st with rxBuf := st.rxBuf ++ bytes }
  | updateStep (st : IBusState) : Step st (update st)

/-- States reachable from a freshly constructed engine through the
public operations. -/
def Reachable (st : IBusState) : Prop :=
  Relation.ReflTransGen Step initialState st

/-! Helper lemmas about the sensor registry. -/

theorem length_updateValueAt (sensors : List Sensor) (i v : Nat) :
    (updateValueAt sensors i v).length = sensors.length := by
  induction sensors generalizing i with
  | nil => rfl
  | cons hd rest ih =>
    cases i with
    | zero => simp [updateValueAt]
    | succ j => simp [updateValueAt, ih]

theorem get?_updateValueAt (sensors : List Sensor) (i v j : Nat) :
    (updateValueAt sensors i v).get? j =
      if j = i then (sensors.get? i).map (fun s => { s with value := v })
      else sensors.get? j := by
  induction sensors generalizing i j with
  | nil => simp [updateValueAt]
  | cons hd rest ih =>
    cases i with
    | zero =>
      cases j with
      | zero => simp [updateValueAt]
      | succ j => simp [updateValueAt]
    | succ i =>
      cases j with
      | zero => simp [updateValueAt]
      | succ j => simpa [updateValueAt] using ih i j

theorem hasValueAt_updateValueAt (sensors : List Sensor) (i v j : Nat) :
    hasValueAt (updateValueAt sensors i v) j = hasValueAt sensors j := by
  unfold hasValueAt
  rw [get?_updateValueAt]
  by_cases h : j = i
  · subst h
    cases sensors.get? j <;> simp
  · rw [if_neg h]

theorem findSensorIndex_updateValueAt (sensors : List Sensor) (i v t : Nat) :
    findSensorIndex (updateValueAt sensors i v) t = findSensorIndex sensors t := by
  induction sensors generalizing i with
  | nil => rfl
  | cons hd rest ih =>
    cases i with
    | zero => simp [updateValueAt, findSensorIndex]
    | succ j => simp [updateValueAt, findSensorIndex, ih]

theorem occupiedOfType_updateValueAt (sensors : List Sensor) (i v t : Nat) :
    occupiedOfType (updateValueAt sensors i v) t = occupiedOfType sensors t := by
  induction sensors generalizing i with
  | nil => rfl
  | cons hd rest ih =>
    cases i with
    | zero =>
      simp only [updateValueAt, occupiedOfType, List.filter]
      cases hd.hasValue && hd.type == t <;> simp
    | succ j =>
      simp only [updateValueAt, occupiedOfType, List.filter]
      cases hd.hasValue && hd.type == t <;> simpa [occupiedOfType] using ih j

theorem occupiedCount_updateValueAt (sensors : List Sensor) (i v : Nat) :
    occupiedCount (updateValueAt sensors i v) = occupiedCount sensors := by
  induction sensors generalizing i with
  | nil => rfl
  | cons hd rest ih =>
    cases i with
    | zero =>
      simp only [updateValueAt, occupiedCount, List.filter]
      cases hd.hasValue <;> simp
    | succ j =>
      simp only [updateValueAt, occupiedCount, List.filter]
      cases hd.hasValue <;> simpa [occupiedCount] using ih j

theorem findSensorIndex_eq_some (sensors : List Sensor) (t i : Nat)
    (h : findSensorIndex sensors t = some i) :
    ∃ s, sensors.get? i = some s ∧ s.hasValue = true ∧ s.type = t := by
  induction sensors generalizing i with
  | nil => simp [findSensorIndex] at h
  | cons hd rest ih =>
    rw [findSensorIndex] at h
    by_cases hhd : hd.hasValue && hd.type == t
    · rw [if_pos hhd] at h
      obtain ⟨h1, h2⟩ := Bool.and_eq_true_iff.mp hhd
      cases h
      exact ⟨hd, rfl, h1, by simpa using h2⟩
    · rw [if_neg hhd] at h
      cases hfr : findSensorIndex rest t with
      | none => simp [hfr] at h
      | some j =>
        rw [hfr] at h
        simp only [Option.map_some', Option.some.injEq] at h
        subst h
        obtain ⟨s, hs1, hs2, hs3⟩ := ih j hfr
        exact ⟨s, by simpa using hs1, hs2, hs3⟩

theorem findSensorIndex_eq_none_iff (sensors : List Sensor) (t : Nat) :
    findSensorIndex sensors t = none ↔
      ∀ s ∈ sensors, s.hasValue = true → s.type ≠ t := by
  induction sensors with
  | nil => simp [findSensorIndex]
  | cons hd rest ih =>
    rw [findSensorIndex]
    by_cases hhd : hd.hasValue && hd.type == t
    · rw [if_pos hhd]
      obtain ⟨h1, h2⟩ := Bool.and_eq_true_iff.mp hhd
      simp only [beq_iff_eq] at h2
      constructor
      · intro h; simp at h
      · intro h
        exact absurd h2 (h hd (List.mem_cons_self hd rest) h1)
    · rw [if_neg hhd]
      have hhd' : hd.hasValue = true → hd.type ≠ t := by
        intro h1 h2
        exact hhd (by simp [h1, h2])
      constructor
      · intro h s hs hval
        rcases List.mem_cons.mp hs with rfl | hs'
        · exact hhd' hval
        · have : findSensorIndex rest t = none := by
            cases hfr : findSensorIndex rest t with
            | none => rfl
            | some j => rw [hfr] at h; simp at h
          exact (ih.mp this) s hs' hval
      · intro h
        have : findSensorIndex rest t = none :=
          ih.mpr (fun s hs hval => h s (List.mem_cons_of_mem hd hs) hval)
        simp [this]

theorem occupiedOfType_eq_zero_iff (sensors : List Sensor) (t : Nat) :
    occupiedOfType sensors t = 0 ↔
      ∀ s ∈ sensors, s.hasValue = true → s.type ≠ t := by
  unfold occupiedOfType
  rw [List.length_eq_zero, List.filter_eq_nil_iff]
  constructor
  · intro h s hs hval heq
    have := h s hs
    simp [hval, heq] at this
  · intro h s hs
    by_cases hval : s.hasValue = true
    · simp [hval, h s hs hval]
    · simp [Bool.eq_false_iff.mpr hval]

theorem length_occupyFirstFree (sensors : List Sensor) (t v : Nat) :
    (occupyFirstFree sensors t v).length = sensors.length := by
  induction sensors with
  | nil => rfl
  | cons hd rest ih =>
    rw [occupyFirstFree]
    by_cases h : hd.hasValue <;> simp [h, ih]

theorem occupyFirstFree_full (sensors : List Sensor) (t v : Nat)
    (h : ∀ s ∈ sensors, s.hasValue = true) :
    occupyFirstFree sensors t v = sensors := by
  induction sensors with
  | nil => rfl
  | cons hd rest ih =>
    rw [occupyFirstFree, if_pos (h hd (List.mem_cons_self hd rest))]
    rw [ih (fun s hs => h s (List.mem_cons_of_mem hd hs))]

theorem get?_occupyFirstFree_occupied (sensors : List Sensor) (t v j : Nat)
    (h : hasValueAt sensors j = true) :
    (occupyFirstFree sensors t v).get? j = sensors.get? j := by
  induction sensors generalizing j with
  | nil => simp [hasValueAt] at h
  | cons hd rest ih =>
    rw [occupyFirstFree]
    by_cases hval : hd.hasValue = true
    · rw [if_pos hval]
      cases j with
      | zero => rfl
      | succ j =>
        have : hasValueAt rest j = true := by
          simpa [hasValueAt] using h
        simpa using ih j this
    · rw [if_neg hval]
      cases j with
      | zero =>
        have : hd.hasValue = true := by simpa [hasValueAt] using h
        exact absurd this hval
      | succ j => simp

theorem occupy_of_free (sensors : List Sensor) (t v : Nat)
    (hnone : findSensorIndex sensors t = none)
    (hfree : ∃ s ∈ sensors, s.hasValue = false) :
    ∃ i, findSensorIndex (occupyFirstFree sensors t v) t = some i ∧
      (occupyFirstFree sensors t v).get? i = some ⟨t, v, true⟩ ∧
      occupiedOfType (occupyFirstFree sensors t v) t = 1 := by
  induction sensors with
  | nil => simp at hfree
  | cons hd rest ih =>
    rw [findSensorIndex] at hnone
    by_cases hcond : hd.hasValue && hd.type == t
    · rw [if_pos hcond] at hnone; simp at hnone
    · rw [if_neg hcond] at hnone
      have hrest : findSensorIndex rest t = none := Option.map_eq_none'.mp hnone
      rw [occupyFirstFree]
      by_cases hval : hd.hasValue = true
      · rw [if_pos hval]
        have hfree' : ∃ s ∈ rest, s.hasValue = false := by
          obtain ⟨s, hs, hsv⟩ := hfree
          rcases List.mem_cons.mp hs with rfl | hs'
          · rw [hval] at hsv; cases hsv
          · exact ⟨s, hs', hsv⟩
        obtain ⟨i, h1, h2, h3⟩ := ih hrest hfree'
        refine ⟨i + 1, ?_, by simpa using h2, ?_⟩
        · rw [findSensorIndex, if_neg hcond, h1]; rfl
        · simpa [occupiedOfType, List.filter, Bool.eq_false_iff.mpr hcond]
            using h3
      · rw [if_neg hval]
        refine ⟨0, ?_, rfl, ?_⟩
        · simp [findSensorIndex]
        · have h0 : occupiedOfType rest t = 0 :=
            (occupiedOfType_eq_zero_iff rest t).mpr
              ((findSensorIndex_eq_none_iff rest t).mp hrest)
          simpa [occupiedOfType, List.filter] using h0

theorem occupiedCount_cons (hd : Sensor) (rest : List Sensor) :
    occupiedCount (hd :: rest) =
      (if hd.hasValue = true then 1 else 0) + occupiedCount rest := by
  by_cases h : hd.hasValue = true <;>
    (simp [occupiedCount, List.filter_cons, h]; try omega)

theorem hasValueAt_cons_zero (hd : Sensor) (rest : List Sensor) :
    hasValueAt (hd :: rest) 0 = hd.hasValue := rfl

theorem hasValueAt_cons_succ (hd : Sensor) (rest : List Sensor) (j : Nat) :
    hasValueAt (hd :: rest) (j + 1) = hasValueAt rest j := rfl

theorem contiguous_tail (hd : Sensor) (rest : List Sensor)
    (h : contiguous (hd :: rest)) (hval : hd.hasValue = true) :
    contiguous rest := by
  intro i
  have h2 := h (i + 1)
  rw [hasValueAt_cons_succ, occupiedCount_cons, if_pos hval] at h2
  constructor
  · intro hh; have := h2.mp hh; omega
  · intro hh; exact h2.mpr (by omega)

theorem contiguous_count_zero (hd : Sensor) (rest : List Sensor)
    (h : contiguous (hd :: rest)) (hval : hd.hasValue = false) :
    occupiedCount (hd :: rest) = 0 := by
  have h0 := h 0
  rw [hasValueAt_cons_zero, hval] at h0
  by_contra hne
  have hpos : 0 < occupiedCount (hd :: rest) := Nat.pos_of_ne_zero hne
  cases h0.mpr hpos

theorem occupy_contig (sensors : List Sensor) (t v : Nat)
    (hc : contiguous sensors) (hlt : occupiedCount sensors < sensors.length) :
    (occupyFirstFree sensors t v).get? (occupiedCount sensors) = some ⟨t, v, true⟩ ∧
    (∀ j, j ≠ occupiedCount sensors →
      (occupyFirstFree sensors t v).get? j = sensors.get? j) ∧
    occupiedCount (occupyFirstFree sensors t v) = occupiedCount sensors + 1 := by
  induction sensors with
  | nil => simp [occupiedCount] at hlt
  | cons hd rest ih =>
    rw [occupyFirstFree]
    by_cases hval : hd.hasValue = true
    · rw [if_pos hval]
      have hcr : contiguous rest := contiguous_tail hd rest hc hval
      have hcount : occupiedCount (hd :: rest) = occupiedCount rest + 1 := by
        rw [occupiedCount_cons, if_pos hval]; omega
      have hlt' : occupiedCount rest < rest.length := by
        rw [hcount] at hlt
        simpa using hlt
      obtain ⟨h1, h2, h3⟩ := ih hcr hlt'
      refine ⟨?_, ?_, ?_⟩
      · rw [hcount]; simpa using h1
      · intro j hj
        cases j with
        | zero => rfl
        | succ j =>
          have hj' : j ≠ occupiedCount rest := by
            rw [hcount] at hj; omega
          simpa using h2 j hj'
      · rw [occupiedCount_cons, if_pos hval, h3, hcount]
        omega
    · rw [if_neg hval]
      have hval' : hd.hasValue = false := by
        cases hv : hd.hasValue
        · rfl
        · exact absurd hv hval
      have hzero : occupiedCount (hd :: rest) = 0 :=
        contiguous_count_zero hd rest hc hval'
      have hrest0 : occupiedCount rest = 0 := by
        rw [occupiedCount_cons] at hzero
        omega
      refine ⟨?_, ?_, ?_⟩
      · rw [hzero]; rfl
      · intro j hj
        cases j with
        | zero => rw [hzero] at hj; cases hj rfl
        | succ j => rfl
      · rw [hzero, occupiedCount_cons]
        simp [hrest0]

theorem hasValueAt_eq_of_get?_eq {s1 s2 : List Sensor} {i : Nat}
    (h : s1.get? i = s2.get? i) : hasValueAt s1 i = hasValueAt s2 i := by
  unfold hasValueAt
  rw [h]

theorem contiguous_occupy (sensors : List Sensor) (t v : Nat)
    (hc : contiguous sensors) (hlt : occupiedCount sensors < sensors.length) :
    contiguous (occupyFirstFree sensors t v) := by
  obtain ⟨h1, h2, h3⟩ := occupy_contig sensors t v hc hlt
  intro i
  rw [h3]
  by_cases hi : i = occupiedCount sensors
  · subst hi
    unfold hasValueAt
    rw [h1]
    simp
  · rw [hasValueAt_eq_of_get?_eq (h2 i hi)]
    have hci := hc i
    constructor
    · intro hh; have := hci.mp hh; omega
    · intro hh; exact hci.mpr (by omega)

theorem length_setSensorValue (sensors : List Sensor) (t v : Nat) :
    (setSensorValue sensors t v).length = sensors.length := by
  unfold setSensorValue
  cases findSensorIndex sensors t with
  | some i => exact length_updateValueAt sensors i v
  | none => exact length_occupyFirstFree sensors t v

theorem all_occupied_of_count_eq_length (sensors : List Sensor)
    (h : occupiedCount sensors = sensors.length) :
    ∀ s ∈ sensors, s.hasValue = true := by
  induction sensors with
  | nil => simp
  | cons hd rest ih =>
    rw [occupiedCount_cons] at h
    by_cases hval : hd.hasValue = true
    · rw [if_pos hval] at h
      intro s hs
      rcases List.mem_cons.mp hs with rfl | hs'
      · exact hval
      · have h' : occupiedCount rest = rest.length := by
          simp only [List.length_cons] at h
          omega
        exact ih h' s hs'
    · rw [if_neg hval] at h
      have hle : occupiedCount rest ≤ rest.length := List.length_filter_le _ _
      simp only [List.length_cons] at h
      omega

theorem contiguous_setSensorValue (sensors : List Sensor) (t v : Nat)
    (hc : contiguous sensors) :
    contiguous (setSensorValue sensors t v) := by
  unfold setSensorValue
  cases hf : findSensorIndex sensors t with
  | some i =>
    intro j
    rw [hasValueAt_updateValueAt, occupiedCount_updateValueAt]
    exact hc j
  | none =>
    rcases Nat.lt_or_ge (occupiedCount sensors) sensors.length with hlt | hge
    · exact contiguous_occupy sensors t v hc hlt
    · have heq : occupiedCount sensors = sensors.length :=
        Nat.le_antisymm (List.length_filter_le _ _) hge
      rw [occupyFirstFree_full sensors t v (all_occupied_of_count_eq_length sensors heq)]
      exact hc

theorem setSensorValue_preserves_occupied (sensors : List Sensor) (t v i : Nat)
    (s : Sensor) (h : sensors.get? i = some s) (hval : s.hasValue = true) :
    ∃ s', (setSensorValue sensors t v).get? i = some s' ∧
      s'.hasValue = true ∧ s'.type = s.type := by
  unfold setSensorValue
  cases hf : findSensorIndex sensors t with
  | some k =>
    rw [get?_updateValueAt]
    by_cases hik : i = k
    · subst hik
      rw [if_pos rfl, h]
      exact ⟨{ s with value := v }, rfl, hval, rfl⟩
    · rw [if_neg hik]
      exact ⟨s, h, hval, rfl⟩
  | none =>
    have hv : hasValueAt sensors i = true := by
      unfold hasValueAt
      rw [h]
      exact hval
    rw [get?_occupyFirstFree_occupied sensors t v i hv]
    exact ⟨s, h, hval, rfl⟩

/-! Lemmas showing the protocol handlers never touch the registry. -/

theorem sendPacket_sensors (st : IBusState) (data : List Nat) :
    (sendPacket st data).sensors = st.sensors := by
  unfold sendPacket
  split <;> rfl

theorem sendDiscoveryResponse_sensors (st : IBusState) (a : Nat) :
    (sendDiscoveryResponse st a).sensors = st.sensors := by
  unfold sendDiscoveryResponse
  simp [sendPacket_sensors]

theorem handleDiscoveryCommand_sensors (st : IBusState) (a : Nat) :
    (handleDiscoveryCommand st a).sensors = st.sensors := by
  unfold handleDiscoveryCommand
  split
  · simp [sendDiscoveryResponse_sensors]
  · rfl

theorem sendTypeResponse_sensors (st : IBusState) (a : Nat) :
    (sendTypeResponse st a).sensors = st.sensors := by
  unfold sendTypeResponse
  split
  · rfl
  · split
    · rfl
    · split
      · rfl
      · simp [sendPacket_sensors]

theorem sendMeasurementResponse_sensors (st : IBusState) (a : Nat) :
    (sendMeasurementResponse st a).sensors = st.sensors := by
  unfold sendMeasurementResponse
  split
  · rfl
  · split
    · rfl
    · split
      · rfl
      · simp [sendPacket_sensors]

theorem handlePacket_sensors (st : IBusState) :
    (handlePacket st).sensors = st.sensors := by
  unfold handlePacket
  dsimp only
  split
  · split
    · split
      · exact handleDiscoveryCommand_sensors _ _
      · split
        · exact sendTypeResponse_sensors _ _
        · split
          · exact sendMeasurementResponse_sensors _ _
          · rfl
    · rfl
  · rfl

theorem update_sensors (st : IBusState) :
    (update st).sensors = st.sensors := by
  unfold update
  split
  · rfl
  · split
    · exact handlePacket_sensors st
    · rfl

theorem calculateChecksum_eq (b0 b1 b2 b3 : Nat) (h : b0 + b1 + b2 + b3 < 65536) :
    calculateChecksum [b0, b1, b2, b3] = 0xFFFF - (b0 + b1 + b2 + b3) := by
  simp only [calculateChecksum, List.foldl]
  omega

theorem and_255_lt (x : Nat) : x &&& 255 < 256 := by
  have h : x &&& 255 ≤ 255 := Nat.and_le_right
  omega

theorem and_255_of_lt (x : Nat) (h : x < 256) : x &&& 255 = x := by
  have h8 := Nat.and_pow_two_sub_one_eq_mod x 8
  norm_num at h8
  rw [h8, Nat.mod_eq_of_lt h]

theorem shiftRight8_lt (x : Nat) (h : x < 65536) : x >>> 8 < 256 := by
  rw [Nat.shiftRight_eq_div_pow]
  omega

theorem handlePacket_rxBuf (st : IBusState) : (handlePacket st).rxBuf = [] := rfl

/-! The claims. -/

/-- C10: when begin has never been called, so no serial port is attached,
update returns without reading or writing a transport byte and without
changing any state: the whole engine state is unchanged. -/
theorem update_without_serial (st : IBusState) (h : st.serialAttached = false) :
    update st = st := by
  unfold update
  rw [h]
  simp

/-- Witness for update_without_serial at the freshly constructed engine. -/
theorem update_without_serial_witness :
    initialState.serialAttached = false ∧ update initialState = initialState :=
  ⟨rfl, update_without_serial initialState rfl⟩

/-- C8: with a serial port attached and at least 4 buffered bytes, one
invocation of update leaves the receive buffer empty, whatever the
consumed frame contained. -/
theorem update_clears_buffer (st : IBusState) (hs : st.serialAttached = true)
    (hlen : 4 ≤ st.rxBuf.length) :
    (update st).rxBuf = [] := by
  unfold update
  rw [hs]
  simp only [Bool.not_true, Bool.false_eq_true, if_false]
  rw [if_pos hlen]
  exact handlePacket_rxBuf st

/-- A concrete attached state with five buffered garbage bytes, used as
a witness input. -/
def garbageState : IBusState :=
  { initialState with serialAttached := true, rxBuf := [1, 2, 3, 4, 5] }

/-- Witness for update_clears_buffer: a buffer of five garbage bytes is
fully discarded. -/
theorem update_clears_buffer_witness :
    garbageState.serialAttached = true ∧
    4 ≤ garbageState.rxBuf.length ∧
    (update garbageState).rxBuf = [] :=
  ⟨rfl, by decide, update_clears_buffer garbageState rfl (by decide)⟩

/-- C7: a 4-byte frame that fails validation is dropped silently: no
byte is written, the response counter, registry and discovered flag are
unchanged, and the frame counter still receives exactly one uint32
increment (wrapping at 2 to the 32, as the uint32 counter of the source
does). -/
theorem invalid_frame_dropped (st : IBusState) (x0 x1 x2 x3 : Nat)
    (rest : List Nat)
    (hbuf : st.rxBuf = x0 :: x1 :: x2 :: x3 :: rest)
    (hinv : validatePacket (x0 % 256) (x1 % 256) (x2 % 256) (x3 % 256) = false) :
    (handlePacket st).txBuf = st.txBuf ∧
    (handlePacket st).responseCount = st.responseCount ∧
    (handlePacket st).sensors = st.sensors ∧
    (handlePacket st).anyDiscovered = st.anyDiscovered ∧
    (handlePacket st).packetCount = (st.packetCount + 1) % 4294967296 := by
  simp [handlePacket, readByteAt, hbuf, hinv]

/-- A concrete attached state buffering a frame whose checksum is wrong,
used as a witness input. -/
def badFrameState : IBusState :=
  { initialState with serialAttached := true, rxBuf := [4, 145, 0, 0] }

/-- Witness for invalid_frame_dropped: a frame with a wrong checksum. -/
theorem invalid_frame_dropped_witness :
    badFrameState.rxBuf = 4 :: 145 :: 0 :: 0 :: [] ∧
    validatePacket (4 % 256) (145 % 256) (0 % 256) (0 % 256) = false ∧
    (handlePacket badFrameState).packetCount
      = (badFrameState.packetCount + 1) % 4294967296 :=
  ⟨rfl, by decide,
    (invalid_frame_dropped badFrameState 4 145 0 0 [] rfl (by decide)).2.2.2.2⟩

/-- C6: with all four slots occupied, registering a fifth distinct type
leaves the registry bit-for-bit unchanged; there are still exactly four
occupied slots. -/
theorem setSensorValue_full_noop (sensors : List Sensor) (t v : Nat)
    (hlen : sensors.length = 4)
    (hocc : ∀ s ∈ sensors, s.hasValue = true)
    (hdist : ∀ s ∈ sensors, s.type ≠ t) :
    setSensorValue sensors t v = sensors ∧ occupiedCount sensors = 4 := by
  constructor
  · unfold setSensorValue
    rw [(findSensorIndex_eq_none_iff sensors t).mpr (fun s hs _ => hdist s hs)]
    exact occupyFirstFree_full sensors t v hocc
  · unfold occupiedCount
    rw [List.filter_eq_self.mpr (fun s hs => hocc s hs)]
    exact hlen

/-- Witness for setSensorValue_full_noop on a registry holding types
0, 1, 2, 3 and a fifth type 4. -/
theorem setSensorValue_full_noop_witness :
    ([⟨0, 1, true⟩, ⟨1, 2, true⟩, ⟨2, 3, true⟩,
      ⟨3, 4, true⟩] : List Sensor).length = 4 ∧
    (∀ s ∈ ([⟨0, 1, true⟩, ⟨1, 2, true⟩, ⟨2, 3, true⟩,
      ⟨3, 4, true⟩] : List Sensor), s.hasValue = true) ∧
    (∀ s ∈ ([⟨0, 1, true⟩, ⟨1, 2, true⟩, ⟨2, 3, true⟩,
      ⟨3, 4, true⟩] : List Sensor), s.type ≠ 4) ∧
    (setSensorValue [⟨0, 1, true⟩, ⟨1, 2, true⟩, ⟨2, 3, true⟩,
      ⟨3, 4, true⟩] 4 9 = [⟨0, 1, true⟩, ⟨1, 2, true⟩, ⟨2, 3, true⟩, ⟨3, 4, true⟩] ∧
      occupiedCount [⟨0, 1, true⟩, ⟨1, 2, true⟩, ⟨2, 3, true⟩, ⟨3, 4, true⟩] = 4) :=
  ⟨rfl, by decide, by decide,
    setSensorValue_full_noop _ 4 9 rfl (by decide) (by decide)⟩

/-- C1 is refuted on the code: for the 2-byte header [0x05, 0x00] the
checksum bytes the claim constructs are 0xFA and 0xFF, yet validatePacket
rejects the frame because the length byte is checked against 0x04. -/
theorem validate_header_counterexample :
    ((0xFFFF - (0x05 + 0x00)) % 65536) &&& 0xFF = 0xFA ∧
    ((0xFFFF - (0x05 + 0x00)) % 65536) >>> 8 = 0xFF ∧
    validatePacket 0x05 0x00 0xFA 0xFF = false := by
  decide

/-- The C1 round trip for one header byte and one flipped bit position:
the correctly checksummed frame with length byte 0x04 validates, and
flipping the given bit in any one of the four bytes makes validation
fail. -/
def headerRoundTrip (p1 j : Nat) : Bool :=
  let chk := (0xFFFF - (0x04 + p1)) % 65536
  validatePacket 0x04 p1 (chk &&& 0xFF) (chk >>> 8) &&
  !validatePacket (0x04 ^^^ (1 <<< j)) p1 (chk &&& 0xFF) (chk >>> 8) &&
  !validatePacket 0x04 (p1 ^^^ (1 <<< j)) (chk &&& 0xFF) (chk >>> 8) &&
  !validatePacket 0x04 p1 ((chk &&& 0xFF) ^^^ (1 <<< j)) (chk >>> 8) &&
  !validatePacket 0x04 p1 (chk &&& 0xFF) ((chk >>> 8) ^^^ (1 <<< j))

set_option maxRecDepth 10000 in
set_option maxHeartbeats 4000000 in
/-- C1 amended: the round trip holds for every frame whose length byte
is 0x04 (the only length the validator accepts), for every command or
address byte and every single-bit corruption of any of the four bytes. -/
theorem validate_roundtrip_bitflip :
    ∀ p1 < 256, ∀ j < 8, headerRoundTrip p1 j = true := by
  decide

/-- Witness for validate_roundtrip_bitflip at the TYPE request header
byte 0x91 and bit 0. -/
theorem validate_roundtrip_bitflip_witness :
    (0x91 : Nat) < 256 ∧ (0 : Nat) < 8 ∧ headerRoundTrip 0x91 0 = true :=
  ⟨by decide, by decide, validate_roundtrip_bitflip 0x91 (by decide) 0 (by decide)⟩

/-- C2: a valid DISCOVER frame for address a in 1..4 produces no output
when the slot a-1 is unoccupied; when it is occupied, exactly the echo
[0x04, 0x80 or a, checksum lo, checksum hi] is written, with checksum
0xFFFF - (0x04 + (0x80 or a)) transmitted little-endian, and the
ever-discovered flag is set. -/
theorem discover_dispatch (st : IBusState) (a p2 p3 : Nat) (rest : List Nat)
    (ha1 : 1 ≤ a) (ha4 : a ≤ 4) (hp2 : p2 < 256) (hp3 : p3 < 256)
    (hs : st.serialAttached = true)
    (hvalid : validatePacket 0x04 (0x80 ||| a) p2 p3 = true)
    (hbuf : st.rxBuf = 0x04 :: (0x80 ||| a) :: p2 :: p3 :: rest) :
    (hasValueAt st.sensors (a - 1) = false → (handlePacket st).txBuf = st.txBuf) ∧
    (hasValueAt st.sensors (a - 1) = true →
      (handlePacket st).txBuf = st.txBuf ++
        [0x04, 0x80 ||| a,
         (0xFFFF - (0x04 + (0x80 ||| a))) &&& 0xFF,
         (0xFFFF - (0x04 + (0x80 ||| a))) >>> 8] ∧
      (handlePacket st).anyDiscovered = true) := by
  have hm2 : p2 % 256 = p2 := Nat.mod_eq_of_lt hp2
  have hm3 : p3 % 256 = p3 := Nat.mod_eq_of_lt hp3
  have hb1 : (0x80 ||| a) % 256 = 0x80 ||| a := by interval_cases a <;> decide
  have hcmd : (0x80 ||| a) &&& 0xF0 = 0x80 := by interval_cases a <;> decide
  have haddr : (0x80 ||| a) &&& 0x0F = a := by interval_cases a <;> decide
  have hhi : ((0xFFFF - (0x04 + (0x80 ||| a))) >>> 8) &&& 0xFF
      = (0xFFFF - (0x04 + (0x80 ||| a))) >>> 8 :=
    and_255_of_lt _ (shiftRight8_lt _ (by omega))
  constructor <;>
    intro hocc <;>
    simp [handlePacket, readByteAt, hbuf, hm2, hm3, hb1, hcmd, haddr, hvalid,
      ha1, ha4, hhi, handleDiscoveryCommand, sendDiscoveryResponse, sendPacket,
      hs, hocc, MAX_SENSORS, IBUS_CMD_DISCOVER, IBUS_CMD_TYPE,
      IBUS_CMD_MEASUREMENT]

/-- C3: with slot a-1 occupied by value v, a valid MEASUREMENT frame for
address a produces exactly the six bytes [0x06, 0xA0 or a, v lo, v hi,
checksum lo, checksum hi]: the value little-endian, the checksum 0xFFFF
minus the sum of the first four bytes, little-endian. -/
theorem measurement_dispatch (st : IBusState) (a t v p2 p3 : Nat)
    (rest : List Nat)
    (ha1 : 1 ≤ a) (ha4 : a ≤ 4) (hv : v < 65536) (hp2 : p2 < 256) (hp3 : p3 < 256)
    (hs : st.serialAttached = true)
    (hvalid : validatePacket 0x04 (0xA0 ||| a) p2 p3 = true)
    (hbuf : st.rxBuf = 0x04 :: (0xA0 ||| a) :: p2 :: p3 :: rest)
    (hslot : st.sensors.get? (a - 1) = some ⟨t, v, true⟩) :
    (handlePacket st).txBuf = st.txBuf ++
      [0x06, 0xA0 ||| a, v &&& 0xFF, v >>> 8,
       (0xFFFF - (0x06 + (0xA0 ||| a) + (v &&& 0xFF) + (v >>> 8))) &&& 0xFF,
       (0xFFFF - (0x06 + (0xA0 ||| a) + (v &&& 0xFF) + (v >>> 8))) >>> 8] := by
  have hm2 : p2 % 256 = p2 := Nat.mod_eq_of_lt hp2
  have hm3 : p3 % 256 = p3 := Nat.mod_eq_of_lt hp3
  have hb1 : (0xA0 ||| a) % 256 = 0xA0 ||| a := by interval_cases a <;> decide
  have hcmd : (0xA0 ||| a) &&& 0xF0 = 0xA0 := by interval_cases a <;> decide
  have haddr : (0xA0 ||| a) &&& 0x0F = a := by interval_cases a <;> decide
  have hb1le : 0xA0 ||| a ≤ 0xA4 := by interval_cases a <;> decide
  have hna : ¬ (MAX_SENSORS < a) := by simp [MAX_SENSORS]; omega
  have hlo : v &&& 0xFF < 256 := and_255_lt v
  have hhi8 : v >>> 8 < 256 := shiftRight8_lt v hv
  have hvhi : (v >>> 8) &&& 0xFF = v >>> 8 := and_255_of_lt _ hhi8
  have hchk : calculateChecksum [0x06, 0xA0 ||| a, v &&& 0xFF, v >>> 8]
      = 0xFFFF - (0x06 + (0xA0 ||| a) + (v &&& 0xFF) + (v >>> 8)) :=
    calculateChecksum_eq _ _ _ _ (by omega)
  have hchkhi : ((0xFFFF - (0x06 + (0xA0 ||| a) + (v &&& 0xFF) + (v >>> 8))) >>> 8) &&& 0xFF
      = (0xFFFF - (0x06 + (0xA0 ||| a) + (v &&& 0xFF) + (v >>> 8))) >>> 8 :=
    and_255_of_lt _ (shiftRight8_lt _ (by omega))
  have hslot' : st.sensors[a - 1]? = some (⟨t, v, true⟩ : Sensor) := by
    rw [← List.get?_eq_getElem?]
    exact hslot
  simp [handlePacket, readByteAt, hbuf, hm2, hm3, hb1, hcmd, haddr, hvalid,
    ha1, ha4, sendMeasurementResponse, hna, hslot', sendPacket, hs, hvhi,
    hchk, hchkhi, IBUS_CMD_DISCOVER, IBUS_CMD_TYPE, IBUS_CMD_MEASUREMENT]

/-- C4: with slot a-1 occupied by a sensor of type t, a valid TYPE frame
for address a produces exactly the six bytes [0x06, 0x90 or a, t, 0x02,
checksum lo, checksum hi], checksum over the first four bytes and
little-endian; with slot a-1 unoccupied nothing is written. -/
theorem type_dispatch (st : IBusState) (a t v p2 p3 : Nat) (rest : List Nat)
    (ha1 : 1 ≤ a) (ha4 : a ≤ 4) (ht : t < 256) (hp2 : p2 < 256) (hp3 : p3 < 256)
    (hs : st.serialAttached = true)
    (hvalid : validatePacket 0x04 (0x90 ||| a) p2 p3 = true)
    (hbuf : st.rxBuf = 0x04 :: (0x90 ||| a) :: p2 :: p3 :: rest) :
    (hasValueAt st.sensors (a - 1) = false → (handlePacket st).txBuf = st.txBuf) ∧
    (st.sensors.get? (a - 1) = some ⟨t, v, true⟩ →
      (handlePacket st).txBuf = st.txBuf ++
        [0x06, 0x90 ||| a, t, 0x02,
         (0xFFFF - (0x06 + (0x90 ||| a) + t + 0x02)) &&& 0xFF,
         (0xFFFF - (0x06 + (0x90 ||| a) + t + 0x02)) >>> 8]) := by
  have hm2 : p2 % 256 = p2 := Nat.mod_eq_of_lt hp2
  have hm3 : p3 % 256 = p3 := Nat.mod_eq_of_lt hp3
  have hb1 : (0x90 ||| a) % 256 = 0x90 ||| a := by interval_cases a <;> decide
  have hcmd : (0x90 ||| a) &&& 0xF0 = 0x90 := by interval_cases a <;> decide
  have haddr : (0x90 ||| a) &&& 0x0F = a := by interval_cases a <;> decide
  have hb1le : 0x90 ||| a ≤ 0x94 := by interval_cases a <;> decide
  have hna : ¬ (MAX_SENSORS < a) := by simp [MAX_SENSORS]; omega
  have hchk : calculateChecksum [0x06, 0x90 ||| a, t, 0x02]
      = 0xFFFF - (0x06 + (0x90 ||| a) + t + 0x02) :=
    calculateChecksum_eq _ _ _ _ (by omega)
  have hchkhi : ((0xFFFF - (0x06 + (0x90 ||| a) + t + 0x02)) >>> 8) &&& 0xFF
      = (0xFFFF - (0x06 + (0x90 ||| a) + t + 0x02)) >>> 8 :=
    and_255_of_lt _ (shiftRight8_lt _ (by omega))
  constructor
  · intro hocc
    rcases hg : st.sensors.get? (a - 1) with _ | s
    · have hg' : st.sensors[a - 1]? = none := by
        rw [← List.get?_eq_getElem?]
        exact hg
      simp [handlePacket, readByteAt, hbuf, hm2, hm3, hb1, hcmd, haddr, hvalid,
        ha1, ha4, sendTypeResponse, hna, hg',
        IBUS_CMD_DISCOVER, IBUS_CMD_TYPE, IBUS_CMD_MEASUREMENT]
    · have hsv : s.hasValue = false := by
        unfold hasValueAt at hocc
        rw [hg] at hocc
        exact hocc
      have hg' : st.sensors[a - 1]? = some s := by
        rw [← List.get?_eq_getElem?]
        exact hg
      simp [handlePacket, readByteAt, hbuf, hm2, hm3, hb1, hcmd, haddr, hvalid,
        ha1, ha4, sendTypeResponse, hna, hg', hsv,
        IBUS_CMD_DISCOVER, IBUS_CMD_TYPE, IBUS_CMD_MEASUREMENT]
  · intro hslot
    have hslot' : st.sensors[a - 1]? = some (⟨t, v, true⟩ : Sensor) := by
      rw [← List.get?_eq_getElem?]
      exact hslot
    simp [handlePacket, readByteAt, hbuf, hm2, hm3, hb1, hcmd, haddr, hvalid,
      ha1, ha4, sendTypeResponse, hna, hslot', sendPacket, hs, hchk, hchkhi,
      IBUS_CMD_DISCOVER, IBUS_CMD_TYPE, IBUS_CMD_MEASUREMENT]
    exact and_255_of_lt _ (shiftRight8_lt _ (by omega))

/-- Witness input for C2: RPM registered in slot 0, a DISCOVER frame for
address 1 buffered. -/
def discoverReqState : IBusState :=
  { initialState with
    serialAttached := true
    sensors := [⟨0x02, 4294, true⟩, ⟨0xFF, 0, false⟩, ⟨0xFF, 0, false⟩, ⟨0xFF, 0, false⟩]
    rxBuf := [0x04, 0x81, 0x7A, 0xFF] }

/-- Witness for discover_dispatch: address 1 is occupied, so the 4-byte
echo is sent and the discovered flag latches. -/
theorem discover_dispatch_witness :
    discoverReqState.serialAttached = true ∧
    validatePacket 0x04 (0x80 ||| 1) 0x7A 0xFF = true ∧
    discoverReqState.rxBuf = 0x04 :: (0x80 ||| 1) :: 0x7A :: 0xFF :: [] ∧
    hasValueAt discoverReqState.sensors (1 - 1) = true ∧
    ((handlePacket discoverReqState).txBuf = discoverReqState.txBuf ++
        [0x04, 0x80 ||| 1,
         (0xFFFF - (0x04 + (0x80 ||| 1))) &&& 0xFF,
         (0xFFFF - (0x04 + (0x80 ||| 1))) >>> 8] ∧
      (handlePacket discoverReqState).anyDiscovered = true) :=
  ⟨rfl, by decide, by decide, by decide,
    (discover_dispatch discoverReqState 1 0x7A 0xFF []
      (by decide) (by decide) (by decide) (by decide) rfl (by decide)
      (by decide)).2 (by decide)⟩

/-- Witness input for C3: value 0x10E8 registered at address 2, a
MEASUREMENT frame for address 2 buffered. -/
def measReqState : IBusState :=
  { initialState with
    serialAttached := true
    sensors := [⟨0x00, 100, true⟩, ⟨0x01, 0x10E8, true⟩, ⟨0xFF, 0, false⟩, ⟨0xFF, 0, false⟩]
    rxBuf := [0x04, 0xA2, 0x59, 0xFF] }

/-- Witness for measurement_dispatch: raw value 0x10E8 at address 2
yields the little-endian value bytes 0xE8, 0x10. -/
theorem measurement_dispatch_witness :
    measReqState.sensors.get? (2 - 1) = some ⟨0x01, 0x10E8, true⟩ ∧
    validatePacket 0x04 (0xA0 ||| 2) 0x59 0xFF = true ∧
    (handlePacket measReqState).txBuf = measReqState.txBuf ++
      [0x06, 0xA0 ||| 2, 0x10E8 &&& 0xFF, 0x10E8 >>> 8,
       (0xFFFF - (0x06 + (0xA0 ||| 2) + (0x10E8 &&& 0xFF) + (0x10E8 >>> 8))) &&& 0xFF,
       (0xFFFF - (0x06 + (0xA0 ||| 2) + (0x10E8 &&& 0xFF) + (0x10E8 >>> 8))) >>> 8] :=
  ⟨by decide, by decide,
    measurement_dispatch measReqState 2 0x01 0x10E8 0x59 0xFF []
      (by decide) (by decide) (by decide) (by decide) (by decide) rfl
      (by decide) (by decide) (by decide)⟩

/-- Witness input for C4: RPM (type code 0x02) registered in slot 0, a
TYPE frame for address 1 buffered. -/
def typeReqState : IBusState :=
  { initialState with
    serialAttached := true
    sensors := [⟨0x02, 4294, true⟩, ⟨0xFF, 0, false⟩, ⟨0xFF, 0, false⟩, ⟨0xFF, 0, false⟩]
    rxBuf := [0x04, 0x91, 0x6A, 0xFF] }

/-- Witness for type_dispatch: the RPM type response for address 1. -/
theorem type_dispatch_witness :
    typeReqState.sensors.get? (1 - 1) = some ⟨0x02, 4294, true⟩ ∧
    validatePacket 0x04 (0x90 ||| 1) 0x6A 0xFF = true ∧
    (handlePacket typeReqState).txBuf = typeReqState.txBuf ++
      [0x06, 0x90 ||| 1, 0x02, 0x02,
       (0xFFFF - (0x06 + (0x90 ||| 1) + 0x02 + 0x02)) &&& 0xFF,
       (0xFFFF - (0x06 + (0x90 ||| 1) + 0x02 + 0x02)) >>> 8] :=
  ⟨by decide, by decide,
    (type_dispatch typeReqState 1 0x02 4294 0x6A 0xFF []
      (by decide) (by decide) (by decide) (by decide) (by decide) rfl
      (by decide) (by decide)).2 (by decide)⟩

/-- C5 is refuted on the code: on a full registry holding types 0..3,
both setSensorValue calls for the absent type 4 are silently dropped, so
afterwards there is no occupied slot of type 4 rather than exactly one. -/
theorem setSensorValue_idem_counterexample :
    occupiedOfType
      (setSensorValue
        (setSensorValue [⟨0, 1, true⟩, ⟨1, 2, true⟩, ⟨2, 3, true⟩, ⟨3, 4, true⟩] 4 7)
        4 9) 4 = 0 ∧
    ¬ occupiedOfType
      (setSensorValue
        (setSensorValue [⟨0, 1, true⟩, ⟨1, 2, true⟩, ⟨2, 3, true⟩, ⟨3, 4, true⟩] 4 7)
        4 9) 4 = 1 := by
  decide

theorem setSensorValue_of_find_some (sensors : List Sensor) (t v i : Nat)
    (h : findSensorIndex sensors t = some i) :
    setSensorValue sensors t v = updateValueAt sensors i v := by
  unfold setSensorValue
  rw [h]

theorem setSensorValue_of_find_none (sensors : List Sensor) (t v : Nat)
    (h : findSensorIndex sensors t = none) :
    setSensorValue sensors t v = occupyFirstFree sensors t v := by
  unfold setSensorValue
  rw [h]

/-- C5 amended: provided at most one occupied slot holds type T and the
registry either already holds T or has a free slot, calling
setSensorValue with v1 and then v2 leaves exactly one occupied slot of
type T, holding v2, and the slot index found for T is the one assigned
by the first call. -/
theorem setSensorValue_idem (sensors : List Sensor) (T v1 v2 : Nat)
    (hone : occupiedOfType sensors T ≤ 1)
    (hroom : (∃ s ∈ sensors, s.hasValue = true ∧ s.type = T) ∨
             (∃ s ∈ sensors, s.hasValue = false)) :
    occupiedOfType (setSensorValue (setSensorValue sensors T v1) T v2) T = 1 ∧
    findSensorIndex (setSensorValue (setSensorValue sensors T v1) T v2) T =
      findSensorIndex (setSensorValue sensors T v1) T ∧
    ∃ i, findSensorIndex (setSensorValue sensors T v1) T = some i ∧
      (setSensorValue (setSensorValue sensors T v1) T v2).get? i =
        some ⟨T, v2, true⟩ := by
  cases hf : findSensorIndex sensors T with
  | some k =>
    have hs1 : setSensorValue sensors T v1 = updateValueAt sensors k v1 :=
      setSensorValue_of_find_some sensors T v1 k hf
    have hf1 : findSensorIndex (setSensorValue sensors T v1) T = some k := by
      rw [hs1, findSensorIndex_updateValueAt, hf]
    have hs2 : setSensorValue (setSensorValue sensors T v1) T v2
        = updateValueAt (setSensorValue sensors T v1) k v2 :=
      setSensorValue_of_find_some _ T v2 k hf1
    obtain ⟨s, hsg, hsv, hst⟩ := findSensorIndex_eq_some sensors T k hf
    have hmem : s ∈ sensors := List.get?_mem hsg
    have hge : 1 ≤ occupiedOfType sensors T := by
      by_contra hlt
      have h0 : occupiedOfType sensors T = 0 := by omega
      exact ((occupiedOfType_eq_zero_iff sensors T).mp h0 s hmem hsv) hst
    refine ⟨?_, ?_, k, hf1, ?_⟩
    · rw [hs2, occupiedOfType_updateValueAt, hs1, occupiedOfType_updateValueAt]
      omega
    · rw [hs2, findSensorIndex_updateValueAt]
    · rw [hs2, get?_updateValueAt, if_pos rfl, hs1, get?_updateValueAt,
        if_pos rfl, hsg]
      cases s
      subst hst
      subst hsv
      rfl
  | none =>
    have hfree : ∃ s ∈ sensors, s.hasValue = false := by
      rcases hroom with ⟨s, hs, hv, ht⟩ | hfree
      · exact absurd ht ((findSensorIndex_eq_none_iff sensors T).mp hf s hs hv)
      · exact hfree
    have hs1 : setSensorValue sensors T v1 = occupyFirstFree sensors T v1 :=
      setSensorValue_of_find_none sensors T v1 hf
    obtain ⟨i, h1, h2, h3⟩ := occupy_of_free sensors T v1 hf hfree
    rw [← hs1] at h1 h2 h3
    have hs2 : setSensorValue (setSensorValue sensors T v1) T v2
        = updateValueAt (setSensorValue sensors T v1) i v2 :=
      setSensorValue_of_find_some _ T v2 i h1
    refine ⟨?_, ?_, i, h1, ?_⟩
    · rw [hs2, occupiedOfType_updateValueAt]
      exact h3
    · rw [hs2, findSensorIndex_updateValueAt]
    · rw [hs2, get?_updateValueAt, if_pos rfl, h2]
      rfl

/-- Witness for setSensorValue_idem: registering type 2 twice on the
fresh registry yields one slot of type 2 at index 0 with the second
value. -/
theorem setSensorValue_idem_witness :
    occupiedOfType initialState.sensors 2 ≤ 1 ∧
    ((∃ s ∈ initialState.sensors, s.hasValue = true ∧ s.type = 2) ∨
      (∃ s ∈ initialState.sensors, s.hasValue = false)) ∧
    (occupiedOfType (setSensorValue (setSensorValue initialState.sensors 2 5) 2 9) 2 = 1 ∧
     findSensorIndex (setSensorValue (setSensorValue initialState.sensors 2 5) 2 9) 2 =
       findSensorIndex (setSensorValue initialState.sensors 2 5) 2 ∧
     ∃ i, findSensorIndex (setSensorValue initialState.sensors 2 5) 2 = some i ∧
       (setSensorValue (setSensorValue initialState.sensors 2 5) 2 9).get? i =
         some ⟨2, 9, true⟩) :=
  ⟨by decide, by decide,
    setSensorValue_idem initialState.sensors 2 5 9 (by decide) (by decide)⟩

/-- Contiguity of the fresh registry: nothing is occupied. -/
theorem contiguous_initial : contiguous initialState.sensors := by
  intro i
  constructor
  · intro hh
    unfold hasValueAt at hh
    cases hg : initialState.sensors.get? i with
    | none => rw [hg] at hh; cases hh
    | some s =>
      rw [hg] at hh
      have hmem : s ∈ initialState.sensors := List.get?_mem hg
      have hs : s = ⟨0xFF, 0, false⟩ := List.eq_of_mem_replicate hmem
      rw [hs] at hh
      cases hh
  · intro hh
    have h0 : occupiedCount initialState.sensors = 0 := by decide
    rw [h0] at hh
    exact absurd hh (Nat.not_lt_zero i)

/-- Any single public operation keeps every occupied slot in place with
its type. -/
theorem step_preserves_occupied (st st' : IBusState) (hstep : Step st st')
    (i : Nat) (s : Sensor) (hg : st.sensors.get? i = some s)
    (hv : s.hasValue = true) :
    ∃ s', st'.sensors.get? i = some s' ∧ s'.hasValue = true ∧
      s'.type = s.type := by
  cases hstep with
  | beginStep => exact ⟨s, hg, hv, rfl⟩
  | setValue t v => exact setSensorValue_preserves_occupied st.sensors t v i s hg hv
  | feed bytes => exact ⟨s, hg, hv, rfl⟩
  | updateStep =>
    rw [update_sensors]
    exact ⟨s, hg, hv, rfl⟩

/-- C9: every reachable state keeps a 4-slot registry whose occupied
slots form a contiguous initial segment; no public operation moves an
occupied slot or changes its type; and a new distinct type registered
when k-1 slots are occupied (k at most 4) lands in slot k-1, hence is
served at bus address k = (k-1)+1 by the address-minus-1 slot lookup of
the dispatch handlers. -/
theorem reachable_registry_invariant (st : IBusState) (h : Reachable st) :
    st.sensors.length = 4 ∧ contiguous st.sensors ∧
    (∀ st', Step st st' → ∀ i s, st.sensors.get? i = some s →
      s.hasValue = true →
      ∃ s', st'.sensors.get? i = some s' ∧ s'.hasValue = true ∧
        s'.type = s.type) ∧
    (∀ t v, findSensorIndex st.sensors t = none →
      occupiedCount st.sensors < 4 →
      (setSensorValue st.sensors t v).get? (occupiedCount st.sensors) =
        some ⟨t, v, true⟩) := by
  have hP : st.sensors.length = 4 ∧ contiguous st.sensors := by
    induction h with
    | refl => exact ⟨rfl, contiguous_initial⟩
    | tail hR hstep ih =>
      obtain ⟨ihlen, ihcontig⟩ := ih
      cases hstep with
      | beginStep => exact ⟨ihlen, ihcontig⟩
      | setValue t v =>
        constructor
        · simp only [engineSetSensorValue]
          rw [length_setSensorValue]
          exact ihlen
        · simp only [engineSetSensorValue]
          exact contiguous_setSensorValue _ _ _ ihcontig
      | feed bytes => exact ⟨ihlen, ihcontig⟩
      | updateStep =>
        constructor
        · rw [update_sensors]
          exact ihlen
        · rw [update_sensors]
          exact ihcontig
  refine ⟨hP.1, hP.2, ?_, ?_⟩
  · intro st' hstep i s hg hv
    exact step_preserves_occupied st st' hstep i s hg hv
  · intro t v hnone hcnt
    rw [setSensorValue_of_find_none st.sensors t v hnone]
    refine (occupy_contig st.sensors t v hP.2 ?_).1
    omega

/-- Witness for reachable_registry_invariant at the freshly constructed
engine, reachable by the empty sequence of operations. -/
theorem reachable_registry_invariant_witness :
    Reachable initialState ∧
    (initialState.sensors.length = 4 ∧ contiguous initialState.sensors ∧
      (∀ st', Step initialState st' → ∀ i s,
        initialState.sensors.get? i = some s → s.hasValue = true →
        ∃ s', st'.sensors.get? i = some s' ∧ s'.hasValue = true ∧
          s'.type = s.type) ∧
      (∀ t v, findSensorIndex initialState.sensors t = none →
        occupiedCount initialState.sensors < 4 →
        (setSensorValue initialState.sensors t v).get?
          (occupiedCount initialState.sensors) = some ⟨t, v, true⟩)) :=
  ⟨Relation.ReflTransGen.refl,
    reachable_registry_invariant initialState Relation.ReflTransGen.refl⟩

end EveryIBus
